import Mathlib

/-!
Verification of the distributed-training loop in
`10-finetuning-llama-405b/train_llm.py`.

The development shallowly embeds the parts of the script that govern
progress counters, checkpointing, resume fast-forward, stage timing and
the leader-first execution pattern:

* `TrainingState` is the `state` dict (lines 163-168).
* `LocalTimer` models the context-manager timer (lines 390-416); wall-clock
  readings are abstracted as rational numbers supplied by the caller.
* `runStep` / `runEpoch` / `runLoop` model the training loop
  (lines 227-324).  External effects (forward/backward/update) only feed
  the loop through the scalar loss, which is abstracted as an integer
  valued function of `(epoch, step index)`; stage durations likewise as
  rational valued functions.  `LoopState` carries,
  besides the counters, ghost observation fields: the list of data-stage
  timer samples, the checkpointed states, the executed `(epoch, step)`
  pairs and the trace of observed counter states.
* `tryRestore` models the resume block (lines 162-193) over an abstract
  store holding `state.json`, `lr_scheduler.pt` and the per-rank shard
  blobs of the sharded checkpoint directory.
* `rank0FirstProg` models `rank0_first` (lines 379-387) as a per-rank
  event program, with barrier semantics expressed on abstract global
  timestamps.
-/

/-- The scalar progress counters of `state` (train_llm.py lines 163-168).
The float `running_loss` accumulator is abstracted as an integer-valued
scalar: the claims below never depend on the numeric domain of the loss,
only on when it is accumulated and reset. -/
structure TrainingState where
  epoch : ℕ
  global_step : ℕ
  epoch_step : ℕ
  running_loss : ℤ
deriving DecidableEq, Repr

/-- The zero-valued `TrainingState` the script starts from (lines 163-168). -/
def zeroState : TrainingState :=
  { epoch := 0, global_step := 0, epoch_step := 0, running_loss := 0 }

/-- The command-line parameters that drive the loop's control flow
(`num_epochs`, `len(dataloader)`, `log_freq`, `ckpt_freq`). -/
structure Config where
  numEpochs : ℕ
  batchesPerEpoch : ℕ
  logFreq : ℕ
  ckptFreq : ℕ
deriving DecidableEq, Repr

/-! ## LocalTimer (lines 390-416) -/

/-- `LocalTimer` (lines 390-416): a list of elapsed-time samples plus the
in-flight start mark.  Device synchronization only affects the clock
readings, which are abstracted as arguments. -/
structure LocalTimer where
  measurements : List ℚ
  start_time : Option ℚ
deriving DecidableEq, Repr

/-- `LocalTimer.__enter__` (lines 399-402): record the start mark `now`. -/
def LocalTimer.enter (t : LocalTimer) (now : ℚ) : LocalTimer :=
  { t with start_time := some now }

/-- `LocalTimer.__exit__` (lines 404-409): when the body exited normally
(`traceback is None`), append `end_time - start_time`; in both cases clear
the start mark. -/
def LocalTimer.exit (t : LocalTimer) (tracebackIsNone : Bool) (now : ℚ) :
    LocalTimer :=
  if tracebackIsNone then
    { t with measurements := t.measurements ++ [now - t.start_time.getD 0],
             start_time := none }
  else
    { t with start_time := none }

/-- `LocalTimer.avg_elapsed_ms` (lines 411-412):
`1000 * (sum(measurements) / len(measurements))`.  On the empty list the
rational division by zero yields `0` (Python would raise). -/
def LocalTimer.avg_elapsed_ms (t : LocalTimer) : ℚ :=
  1000 * (t.measurements.sum / (t.measurements.length : ℚ))

/-- `LocalTimer.reset` (lines 414-416). -/
def LocalTimer.reset (_t : LocalTimer) : LocalTimer :=
  { measurements := [], start_time := none }

/-! ## Checkpoint restore (lines 157-193) -/

/-- The files the script reads or writes under `exp_dir`, for a world of
`n` ranks: the `state.json` scalar document, the `lr_scheduler.pt` blob,
and one partitioned-state blob per rank inside the `checkpoint` directory.
Blob payloads are abstracted as natural numbers. -/
structure Store (n : ℕ) where
  stateJson : Option TrainingState
  lrScheduler : Option ℕ
  shards : Fin n → Option ℕ

/-- What `try_restore` produced: the returned counters, the `resumed`
flag, and the model/optimizer shards and scheduler blob that were loaded
into the live objects (`none` means they were left untouched). -/
structure RestoreOutcome (n : ℕ) where
  state : TrainingState
  resumed : Bool
  modelOptimLoaded : Option (Fin n → ℕ)
  schedulerLoaded : Option ℕ

/-- Modelled from the spec: `torch.distributed.checkpoint`'s `load`
(line 174), which is external to the repository.  Per spec §4.3/§6 it is a
collective load of every rank's partitioned-state blob from the checkpoint
directory; a record whose shards are present for some ranks but missing
for others raises, i.e. is fatal, never a partial result. -/
def dcpLoad (n : ℕ) (store : Store n) : Except Unit (Fin n → ℕ) :=
  if h : ∀ r, (store.shards r).isSome then
    Except.ok fun r => (store.shards r).get (h r)
  else
    Except.error ()

/-- The resume block (lines 162-193): if `state.json` exists, load the
sharded model/optimizer state, load the scheduler blob (`torch.load`
raises if the file is absent), read the counters, and return
`resumed = True`; any failure propagates (there is no handler in `main`).
If `state.json` is absent, return the zero counters with
`resumed = False` and touch nothing. -/
def tryRestore (n : ℕ) (store : Store n) :
    Except Unit (RestoreOutcome n) :=
  match store.stateJson with
  | none => Except.ok ⟨zeroState, false, none, none⟩
  | some st =>
    match dcpLoad n store with
    | Except.error e => Except.error e
    | Except.ok sh =>
      match store.lrScheduler with
      | none => Except.error ()
      | some sched => Except.ok ⟨st, true, some sh, some sched⟩

/-! ## The training loop (lines 227-324) -/

/-- The counter increments at lines 278-280: advance `global_step` and
`epoch_step` by one and accumulate the step's loss. -/
def stepIncState (loss : ℕ → ℕ → ℤ) (i : ℕ) (st : TrainingState) :
    TrainingState :=
  { st with global_step := st.global_step + 1,
            epoch_step := st.epoch_step + 1,
            running_loss := st.running_loss + loss st.epoch i }

/-- Effect of one iteration of the inner loop (lines 236-322) on the
counters alone: a batch index below the restored `epoch_step` is skipped
(lines 241-243); otherwise the counters advance (lines 278-280) and a
logging boundary resets `running_loss` (lines 283-304). -/
def stepState (cfg : Config) (loss : ℕ → ℕ → ℤ) (i : ℕ)
    (st : TrainingState) : TrainingState :=
  if i < st.epoch_step then st
  else
    let st1 := stepIncState loss i st
    if st1.global_step % cfg.logFreq = 0 then { st1 with running_loss := 0 }
    else st1

/-- Ghost observation: the `(epoch, batch index)` pair an iteration
actually executes (empty when the iteration is skipped by the resume
fast-forward test at line 241). -/
def stepExec (i : ℕ) (st : TrainingState) : List (ℕ × ℕ) :=
  if i < st.epoch_step then [] else [(st.epoch, i)]

/-- Ghost observation: the counter state right after the increments at
lines 278-280 (the state at which the logging and checkpoint tests fire);
empty when the iteration is skipped. -/
def stepObs (loss : ℕ → ℕ → ℤ) (i : ℕ) (st : TrainingState) :
    List TrainingState :=
  if i < st.epoch_step then [] else [stepIncState loss i st]

/-- Ghost observation: the counter state written to `state.json` when the
checkpoint test at line 308 fires during this iteration (the `state` dict
as it stands after the increments and a possible logging reset). -/
def stepCkpt (cfg : Config) (loss : ℕ → ℕ → ℤ) (i : ℕ)
    (st : TrainingState) : List TrainingState :=
  if i < st.epoch_step then []
  else if (stepState cfg loss i st).global_step % cfg.ckptFreq = 0 then
    [stepState cfg loss i st]
  else []

/-- The full loop state: the counters plus ghost observation fields.
`dataTimer` is `timers["data"].measurements`; `ckpts` collects every
`TrainingState` written to `state.json` at a checkpoint save; `executed`
collects the executed (not skipped) `(epoch, batch index)` pairs; `trace`
collects every observed counter state. -/
structure LoopState where
  state : TrainingState
  dataTimer : List ℚ
  ckpts : List TrainingState
  executed : List (ℕ × ℕ)
  trace : List TrainingState
deriving DecidableEq, Repr

/-- One iteration of the inner loop (lines 236-322).  The data stage
(lines 237-239) always runs and, exiting normally, appends one sample to
`timers["data"]` (`dt e i` abstracts its duration); the skip test at
line 241 then either ends the iteration or the step executes: counters
advance (lines 278-280), the logging boundary (lines 283-306) resets
`running_loss` and the timers, and the checkpoint boundary
(lines 308-322) saves the current `state`. -/
def runStep (cfg : Config) (loss : ℕ → ℕ → ℤ) (dt : ℕ → ℕ → ℚ) (i : ℕ)
    (ls : LoopState) : LoopState :=
  let ls1 : LoopState :=
    { ls with dataTimer := ls.dataTimer ++ [dt ls.state.epoch i] }
  if i < ls1.state.epoch_step then ls1
  else
    let st1 := stepIncState loss i ls1.state
    let ls2 : LoopState :=
      { ls1 with state := st1,
                 executed := ls1.executed ++ [(ls1.state.epoch, i)],
                 trace := ls1.trace ++ [st1] }
    let ls3 : LoopState :=
      if ls2.state.global_step % cfg.logFreq = 0 then
        { ls2 with state := { ls2.state with running_loss := 0 },
                   dataTimer := [] }
      else ls2
    if ls3.state.global_step % cfg.ckptFreq = 0 then
      { ls3 with ckpts := ls3.ckpts ++ [ls3.state] }
    else ls3

/-- The inner loop over a list of batch indices
(`for i_step in range(len(dataloader))`, line 236). -/
def runSteps (cfg : Config) (loss : ℕ → ℕ → ℤ) (dt : ℕ → ℕ → ℚ) (l : List ℕ)
    (ls : LoopState) : LoopState :=
  l.foldl (fun acc i => runStep cfg loss dt i acc) ls

/-- One epoch body: the inner loop over `range(len(dataloader))` followed
by the end-of-epoch reset `state["epoch_step"] = 0` (line 324).  The reset
state is observed in the trace. -/
def runEpoch (cfg : Config) (loss : ℕ → ℕ → ℤ) (dt : ℕ → ℕ → ℚ) (ls : LoopState) :
    LoopState :=
  let ls' := runSteps cfg loss dt (List.range cfg.batchesPerEpoch) ls
  { ls' with state := { ls'.state with epoch_step := 0 },
             trace := ls'.trace ++ [{ ls'.state with epoch_step := 0 }] }

/-- The epoch-loop header `for state["epoch"] in range(...)` (line 227)
assigns the current epoch number into the state dict; the assigned state
is observed in the trace. -/
def setEpoch (e : ℕ) (ls : LoopState) : LoopState :=
  { ls with state := { ls.state with epoch := e },
            trace := ls.trace ++ [{ ls.state with epoch := e }] }

/-- One iteration of the epoch loop at epoch number `e`. -/
def runEpochAt (cfg : Config) (loss : ℕ → ℕ → ℤ) (dt : ℕ → ℕ → ℚ) (e : ℕ)
    (ls : LoopState) : LoopState :=
  runEpoch cfg loss dt (setEpoch e ls)

/-- The whole loop (lines 227-324):
`for state["epoch"] in range(state["epoch"], args.num_epochs)`. -/
def runLoop (cfg : Config) (loss : ℕ → ℕ → ℤ) (dt : ℕ → ℕ → ℚ) (ls : LoopState) :
    LoopState :=
  (List.range' ls.state.epoch (cfg.numEpochs - ls.state.epoch)).foldl
    (fun acc e => runEpochAt cfg loss dt e acc) ls

/-- Loop state at entry to the loop, with counters `st` (either
`zeroState` or the counters restored from a checkpoint); the ghost fields
start empty and the trace starts with the entry state. -/
def initLoop (st : TrainingState) : LoopState :=
  { state := st, dataTimer := [], ckpts := [], executed := [],
    trace := [st] }

/-! ## Pure counter layer: folds and emitted observations -/

/-- Fold of the pure counter transition over a list of batch indices. -/
def stepsFold (cfg : Config) (loss : ℕ → ℕ → ℤ) (l : List ℕ)
    (st : TrainingState) : TrainingState :=
  l.foldl (fun s i => stepState cfg loss i s) st

/-- Concatenated emissions of `g` along the fold of `f` over a list. -/
def emitFold {σ α : Type} (f : ℕ → σ → σ) (g : ℕ → σ → List α) :
    List ℕ → σ → List α
  | [], _ => []
  | i :: l, st => g i st ++ emitFold f g l (f i st)

/-- Counter effect of one epoch body from state `st`. -/
def epochStateF (cfg : Config) (loss : ℕ → ℕ → ℤ) (st : TrainingState) :
    TrainingState :=
  { stepsFold cfg loss (List.range cfg.batchesPerEpoch) st with
      epoch_step := 0 }

/-- Counter effect of the epoch-loop iteration at epoch `e`. -/
def epochAtStateF (cfg : Config) (loss : ℕ → ℕ → ℤ) (e : ℕ)
    (st : TrainingState) : TrainingState :=
  epochStateF cfg loss { st with epoch := e }

/-- Counter effect of the whole loop from counters `st`. -/
def loopStateF (cfg : Config) (loss : ℕ → ℕ → ℤ) (st : TrainingState) :
    TrainingState :=
  (List.range' st.epoch (cfg.numEpochs - st.epoch)).foldl
    (fun s e => epochAtStateF cfg loss e s) st

/-- Executed pairs emitted by the epoch-loop iteration at epoch `e`. -/
def epochAtExecF (cfg : Config) (loss : ℕ → ℕ → ℤ) (e : ℕ)
    (st : TrainingState) : List (ℕ × ℕ) :=
  emitFold (stepState cfg loss) stepExec (List.range cfg.batchesPerEpoch)
    { st with epoch := e }

/-- Trace states emitted by the epoch-loop iteration at epoch `e`: the
epoch assignment, the per-step observations, and the end-of-epoch reset. -/
def epochAtObsF (cfg : Config) (loss : ℕ → ℕ → ℤ) (e : ℕ)
    (st : TrainingState) : List TrainingState :=
  { st with epoch := e } ::
    (emitFold (stepState cfg loss) (stepObs loss)
        (List.range cfg.batchesPerEpoch) { st with epoch := e } ++
      [{ stepsFold cfg loss (List.range cfg.batchesPerEpoch)
            { st with epoch := e } with epoch_step := 0 }])

/-- Checkpointed states emitted by the epoch-loop iteration at epoch `e`. -/
def epochAtCkptF (cfg : Config) (loss : ℕ → ℕ → ℤ) (e : ℕ)
    (st : TrainingState) : List TrainingState :=
  emitFold (stepState cfg loss) (stepCkpt cfg loss)
    (List.range cfg.batchesPerEpoch) { st with epoch := e }

/-- Executed pairs emitted by the whole loop from counters `st`. -/
def loopExecF (cfg : Config) (loss : ℕ → ℕ → ℤ) (st : TrainingState) :
    List (ℕ × ℕ) :=
  emitFold (epochAtStateF cfg loss) (epochAtExecF cfg loss)
    (List.range' st.epoch (cfg.numEpochs - st.epoch)) st

/-- Trace states emitted by the whole loop from counters `st`. -/
def loopObsF (cfg : Config) (loss : ℕ → ℕ → ℤ) (st : TrainingState) :
    List TrainingState :=
  emitFold (epochAtStateF cfg loss) (epochAtObsF cfg loss)
    (List.range' st.epoch (cfg.numEpochs - st.epoch)) st

/-- Checkpointed states emitted by the whole loop from counters `st`. -/
def loopCkptF (cfg : Config) (loss : ℕ → ℕ → ℤ) (st : TrainingState) :
    List TrainingState :=
  emitFold (epochAtStateF cfg loss) (epochAtCkptF cfg loss)
    (List.range' st.epoch (cfg.numEpochs - st.epoch)) st

/-! ## Projection lemmas: the loop state machine versus the pure layer -/

theorem runStep_state (cfg : Config) (loss : ℕ → ℕ → ℤ) (dt : ℕ → ℕ → ℚ) (i : ℕ)
    (ls : LoopState) :
    (runStep cfg loss dt i ls).state = stepState cfg loss i ls.state := by
  simp only [runStep, stepState]
  split_ifs <;> rfl

theorem runStep_executed (cfg : Config) (loss : ℕ → ℕ → ℤ) (dt : ℕ → ℕ → ℚ) (i : ℕ)
    (ls : LoopState) :
    (runStep cfg loss dt i ls).executed
      = ls.executed ++ stepExec i ls.state := by
  simp only [runStep, stepExec]
  split_ifs <;> simp

theorem runStep_trace (cfg : Config) (loss : ℕ → ℕ → ℤ) (dt : ℕ → ℕ → ℚ) (i : ℕ)
    (ls : LoopState) :
    (runStep cfg loss dt i ls).trace
      = ls.trace ++ stepObs loss i ls.state := by
  simp only [runStep, stepObs]
  split_ifs <;> simp

theorem runStep_ckpts (cfg : Config) (loss : ℕ → ℕ → ℤ) (dt : ℕ → ℕ → ℚ) (i : ℕ)
    (ls : LoopState) :
    (runStep cfg loss dt i ls).ckpts
      = ls.ckpts ++ stepCkpt cfg loss i ls.state := by
  simp only [runStep, stepCkpt, stepState]
  split_ifs <;> simp

theorem runStep_of_skip (cfg : Config) (loss : ℕ → ℕ → ℤ) (dt : ℕ → ℕ → ℚ) (i : ℕ)
    (ls : LoopState) (h : i < ls.state.epoch_step) :
    runStep cfg loss dt i ls
      = { ls with dataTimer := ls.dataTimer ++ [dt ls.state.epoch i] } := by
  simp [runStep, h]

theorem foldl_proj {β σ : Type} (F : β → ℕ → β) (f : ℕ → σ → σ)
    (proj : β → σ) (h : ∀ b i, proj (F b i) = f i (proj b)) :
    ∀ (l : List ℕ) (b : β),
      proj (l.foldl F b) = l.foldl (fun s i => f i s) (proj b)
  | [], _ => rfl
  | i :: l, b => by
    simp only [List.foldl_cons]
    rw [foldl_proj F f proj h l (F b i), h]

theorem foldl_emit {β σ α : Type} (F : β → ℕ → β) (f : ℕ → σ → σ)
    (g : ℕ → σ → List α) (proj : β → σ) (fld : β → List α)
    (hp : ∀ b i, proj (F b i) = f i (proj b))
    (hf : ∀ b i, fld (F b i) = fld b ++ g i (proj b)) :
    ∀ (l : List ℕ) (b : β),
      fld (l.foldl F b) = fld b ++ emitFold f g l (proj b)
  | [], _ => by simp [emitFold]
  | i :: l, b => by
    simp only [List.foldl_cons, emitFold]
    rw [foldl_emit F f g proj fld hp hf l (F b i), hf, hp,
      List.append_assoc]

theorem runSteps_state (cfg : Config) (loss : ℕ → ℕ → ℤ) (dt : ℕ → ℕ → ℚ) (l : List ℕ)
    (ls : LoopState) :
    (runSteps cfg loss dt l ls).state = stepsFold cfg loss l ls.state :=
  foldl_proj _ _ _ (fun b i => runStep_state cfg loss dt i b) l ls

theorem runSteps_executed (cfg : Config) (loss : ℕ → ℕ → ℤ) (dt : ℕ → ℕ → ℚ)
    (l : List ℕ) (ls : LoopState) :
    (runSteps cfg loss dt l ls).executed
      = ls.executed ++ emitFold (stepState cfg loss) stepExec l ls.state :=
  foldl_emit _ _ _ _ _ (fun b i => runStep_state cfg loss dt i b)
    (fun b i => runStep_executed cfg loss dt i b) l ls

theorem runSteps_trace (cfg : Config) (loss : ℕ → ℕ → ℤ) (dt : ℕ → ℕ → ℚ) (l : List ℕ)
    (ls : LoopState) :
    (runSteps cfg loss dt l ls).trace
      = ls.trace
          ++ emitFold (stepState cfg loss) (stepObs loss) l ls.state :=
  foldl_emit _ _ _ _ _ (fun b i => runStep_state cfg loss dt i b)
    (fun b i => runStep_trace cfg loss dt i b) l ls

theorem runSteps_ckpts (cfg : Config) (loss : ℕ → ℕ → ℤ) (dt : ℕ → ℕ → ℚ) (l : List ℕ)
    (ls : LoopState) :
    (runSteps cfg loss dt l ls).ckpts
      = ls.ckpts
          ++ emitFold (stepState cfg loss) (stepCkpt cfg loss) l ls.state :=
  foldl_emit _ _ _ _ _ (fun b i => runStep_state cfg loss dt i b)
    (fun b i => runStep_ckpts cfg loss dt i b) l ls

theorem runEpochAt_state (cfg : Config) (loss : ℕ → ℕ → ℤ) (dt : ℕ → ℕ → ℚ) (e : ℕ)
    (ls : LoopState) :
    (runEpochAt cfg loss dt e ls).state = epochAtStateF cfg loss e ls.state := by
  simp [runEpochAt, runEpoch, setEpoch, epochAtStateF, epochStateF,
    runSteps_state]

theorem runEpochAt_executed (cfg : Config) (loss : ℕ → ℕ → ℤ) (dt : ℕ → ℕ → ℚ) (e : ℕ)
    (ls : LoopState) :
    (runEpochAt cfg loss dt e ls).executed
      = ls.executed ++ epochAtExecF cfg loss e ls.state := by
  simp [runEpochAt, runEpoch, setEpoch, epochAtExecF, runSteps_executed]

theorem runEpochAt_trace (cfg : Config) (loss : ℕ → ℕ → ℤ) (dt : ℕ → ℕ → ℚ) (e : ℕ)
    (ls : LoopState) :
    (runEpochAt cfg loss dt e ls).trace
      = ls.trace ++ epochAtObsF cfg loss e ls.state := by
  simp [runEpochAt, runEpoch, setEpoch, epochAtObsF, runSteps_trace,
    runSteps_state]

theorem runEpochAt_ckpts (cfg : Config) (loss : ℕ → ℕ → ℤ) (dt : ℕ → ℕ → ℚ) (e : ℕ)
    (ls : LoopState) :
    (runEpochAt cfg loss dt e ls).ckpts
      = ls.ckpts ++ epochAtCkptF cfg loss e ls.state := by
  simp [runEpochAt, runEpoch, setEpoch, epochAtCkptF, runSteps_ckpts]

theorem runLoop_state (cfg : Config) (loss : ℕ → ℕ → ℤ) (dt : ℕ → ℕ → ℚ)
    (ls : LoopState) :
    (runLoop cfg loss dt ls).state = loopStateF cfg loss ls.state :=
  foldl_proj _ _ _ (fun b e => runEpochAt_state cfg loss dt e b) _ ls

theorem runLoop_executed (cfg : Config) (loss : ℕ → ℕ → ℤ) (dt : ℕ → ℕ → ℚ)
    (ls : LoopState) :
    (runLoop cfg loss dt ls).executed
      = ls.executed ++ loopExecF cfg loss ls.state :=
  foldl_emit _ _ _ _ _ (fun b e => runEpochAt_state cfg loss dt e b)
    (fun b e => runEpochAt_executed cfg loss dt e b) _ ls

theorem runLoop_trace (cfg : Config) (loss : ℕ → ℕ → ℤ) (dt : ℕ → ℕ → ℚ)
    (ls : LoopState) :
    (runLoop cfg loss dt ls).trace
      = ls.trace ++ loopObsF cfg loss ls.state :=
  foldl_emit _ _ _ _ _ (fun b e => runEpochAt_state cfg loss dt e b)
    (fun b e => runEpochAt_trace cfg loss dt e b) _ ls

theorem runLoop_ckpts (cfg : Config) (loss : ℕ → ℕ → ℤ) (dt : ℕ → ℕ → ℚ)
    (ls : LoopState) :
    (runLoop cfg loss dt ls).ckpts
      = ls.ckpts ++ loopCkptF cfg loss ls.state :=
  foldl_emit _ _ _ _ _ (fun b e => runEpochAt_state cfg loss dt e b)
    (fun b e => runEpochAt_ckpts cfg loss dt e b) _ ls

/-! ## Step-level facts about the pure counter transition -/

theorem stepState_of_skip (cfg : Config) (loss : ℕ → ℕ → ℤ) (i : ℕ)
    (st : TrainingState) (h : i < st.epoch_step) :
    stepState cfg loss i st = st := by
  simp [stepState, h]

theorem stepState_epoch (cfg : Config) (loss : ℕ → ℕ → ℤ) (i : ℕ)
    (st : TrainingState) : (stepState cfg loss i st).epoch = st.epoch := by
  simp only [stepState, stepIncState]
  split_ifs <;> rfl

theorem stepState_epoch_step (cfg : Config) (loss : ℕ → ℕ → ℤ) (i : ℕ)
    (st : TrainingState) :
    (stepState cfg loss i st).epoch_step
      = if i < st.epoch_step then st.epoch_step else st.epoch_step + 1 := by
  simp only [stepState, stepIncState]
  split_ifs <;> rfl

theorem stepState_global_step (cfg : Config) (loss : ℕ → ℕ → ℤ) (i : ℕ)
    (st : TrainingState) :
    (stepState cfg loss i st).global_step
      = if i < st.epoch_step then st.global_step else st.global_step + 1 := by
  simp only [stepState, stepIncState]
  split_ifs <;> rfl

theorem stepState_epoch_step_le (cfg : Config) (loss : ℕ → ℕ → ℤ) (i : ℕ)
    (st : TrainingState) :
    st.epoch_step ≤ (stepState cfg loss i st).epoch_step := by
  rw [stepState_epoch_step]
  split_ifs <;> omega

/-! ## Fold decomposition lemmas -/

theorem emitFold_append {σ α : Type} (f : ℕ → σ → σ) (g : ℕ → σ → List α) :
    ∀ (l₁ l₂ : List ℕ) (st : σ),
      emitFold f g (l₁ ++ l₂) st
        = emitFold f g l₁ st
            ++ emitFold f g l₂ (l₁.foldl (fun s i => f i s) st)
  | [], l₂, st => by simp [emitFold]
  | i :: l₁, l₂, st => by
    simp only [List.cons_append, emitFold, List.foldl_cons, List.append_eq]
    rw [emitFold_append f g l₁ l₂ (f i st), List.append_assoc]

theorem stepsFold_append (cfg : Config) (loss : ℕ → ℕ → ℤ)
    (l₁ l₂ : List ℕ) (st : TrainingState) :
    stepsFold cfg loss (l₁ ++ l₂) st
      = stepsFold cfg loss l₂ (stepsFold cfg loss l₁ st) := by
  simp only [stepsFold]
  exact List.foldl_append _ _ _ _

theorem stepsFold_of_all_skip (cfg : Config) (loss : ℕ → ℕ → ℤ) :
    ∀ (l : List ℕ) (st : TrainingState),
      (∀ i ∈ l, i < st.epoch_step) → stepsFold cfg loss l st = st
  | [], _, _ => rfl
  | i :: l, st, h => by
    have hi : i < st.epoch_step := h i (List.mem_cons_self i l)
    simp only [stepsFold, List.foldl_cons, stepState_of_skip cfg loss i st hi]
    exact stepsFold_of_all_skip cfg loss l st fun j hj =>
      h j (List.mem_cons_of_mem i hj)

theorem emitFold_of_all_skip {α : Type} (cfg : Config) (loss : ℕ → ℕ → ℤ)
    (g : ℕ → TrainingState → List α)
    (hg : ∀ (i : ℕ) (st : TrainingState), i < st.epoch_step → g i st = []) :
    ∀ (l : List ℕ) (st : TrainingState),
      (∀ i ∈ l, i < st.epoch_step) →
        emitFold (stepState cfg loss) g l st = []
  | [], _, _ => rfl
  | i :: l, st, h => by
    have hi : i < st.epoch_step := h i (List.mem_cons_self i l)
    simp only [emitFold, hg i st hi, stepState_of_skip cfg loss i st hi,
      List.nil_append]
    exact emitFold_of_all_skip cfg loss g hg l st fun j hj =>
      h j (List.mem_cons_of_mem i hj)

theorem emitFold_count {σ α : Type} (f : ℕ → σ → σ) (g : ℕ → σ → List α)
    (μ : σ → ℕ) (h : ∀ i s, μ s + (g i s).length = μ (f i s)) :
    ∀ (l : List ℕ) (s : σ),
      μ s + (emitFold f g l s).length = μ (l.foldl (fun a i => f i a) s)
  | [], _ => by simp [emitFold]
  | i :: l, s => by
    simp only [emitFold, List.length_append, List.foldl_cons]
    rw [← emitFold_count f g μ h l (f i s), ← h i s]
    omega

/-! ## Counting executed steps -/

theorem stepExec_count (cfg : Config) (loss : ℕ → ℕ → ℤ) (i : ℕ)
    (st : TrainingState) :
    st.global_step + (stepExec i st).length
      = (stepState cfg loss i st).global_step := by
  rw [stepState_global_step]
  simp only [stepExec]
  split_ifs <;> simp

theorem execCount_steps (cfg : Config) (loss : ℕ → ℕ → ℤ) (l : List ℕ)
    (st : TrainingState) :
    st.global_step + (emitFold (stepState cfg loss) stepExec l st).length
      = (stepsFold cfg loss l st).global_step := by
  simpa [stepsFold] using
    emitFold_count (stepState cfg loss) stepExec (fun s => s.global_step)
      (fun i s => stepExec_count cfg loss i s) l st

theorem epochAt_count (cfg : Config) (loss : ℕ → ℕ → ℤ) (e : ℕ)
    (st : TrainingState) :
    st.global_step + (epochAtExecF cfg loss e st).length
      = (epochAtStateF cfg loss e st).global_step := by
  simp only [epochAtExecF, epochAtStateF, epochStateF]
  have h := execCount_steps cfg loss (List.range cfg.batchesPerEpoch)
    { st with epoch := e }
  simpa using h

/-! ## Fully executed segments -/

theorem stepsFold_epoch (cfg : Config) (loss : ℕ → ℕ → ℤ) :
    ∀ (l : List ℕ) (st : TrainingState),
      (stepsFold cfg loss l st).epoch = st.epoch
  | [], _ => rfl
  | i :: l, st => by
    have h1 := stepsFold_epoch cfg loss l (stepState cfg loss i st)
    have h2 : stepsFold cfg loss (i :: l) st
        = stepsFold cfg loss l (stepState cfg loss i st) := rfl
    rw [h2, h1, stepState_epoch]

theorem stepsFold_range'_epoch_step (cfg : Config) (loss : ℕ → ℕ → ℤ) :
    ∀ (m k : ℕ) (st : TrainingState), st.epoch_step = k →
      (stepsFold cfg loss (List.range' k m) st).epoch_step = k + m
  | 0, k, st, h => by simpa [stepsFold]
  | m + 1, k, st, h => by
    rw [List.range'_succ]
    simp only [stepsFold, List.foldl_cons]
    have hstep : (stepState cfg loss k st).epoch_step = k + 1 := by
      rw [stepState_epoch_step, h]
      simp
    have := stepsFold_range'_epoch_step cfg loss m (k + 1)
      (stepState cfg loss k st) hstep
    simp only [stepsFold] at this
    rw [this]
    omega

theorem emitExec_range' (cfg : Config) (loss : ℕ → ℕ → ℤ) :
    ∀ (m k : ℕ) (st : TrainingState), st.epoch_step = k →
      emitFold (stepState cfg loss) stepExec (List.range' k m) st
        = (List.range' k m).map (fun j => (st.epoch, j))
  | 0, k, st, h => by simp [emitFold]
  | m + 1, k, st, h => by
    rw [List.range'_succ]
    simp only [emitFold, List.map_cons]
    have hstep : (stepState cfg loss k st).epoch_step = k + 1 := by
      rw [stepState_epoch_step, h]
      simp
    have hex : stepExec k st = [(st.epoch, k)] := by
      simp [stepExec, h]
    rw [hex, emitExec_range' cfg loss m (k + 1) (stepState cfg loss k st)
      hstep, stepState_epoch]
    simp

theorem range'_decomp :
    ∀ (n s : ℕ) (l₁ l₂ : List ℕ) (x : ℕ),
      List.range' s n = l₁ ++ x :: l₂ →
      l₁ = List.range' s l₁.length ∧ x = s + l₁.length ∧
        l₂ = List.range' (s + l₁.length + 1) (n - (l₁.length + 1))
  | 0, s, l₁, l₂, x, h => by cases l₁ <;> simp at h
  | n + 1, s, [], l₂, x, h => by
    rw [List.range'_succ] at h
    simp only [List.nil_append] at h
    obtain ⟨hx, hl⟩ := List.cons.inj h
    refine ⟨rfl, by simpa using hx.symm, ?_⟩
    simpa using hl.symm
  | n + 1, s, y :: l₁, l₂, x, h => by
    rw [List.range'_succ] at h
    simp only [List.cons_append] at h
    obtain ⟨hy, hl⟩ := List.cons.inj h
    obtain ⟨h1, h2, h3⟩ := range'_decomp n (s + 1) l₁ l₂ x hl
    refine ⟨?_, ?_, ?_⟩
    · rw [List.length_cons, List.range'_succ, ← h1, hy]
    · simp only [List.length_cons]
      omega
    · rw [h3]
      have e1 : s + 1 + l₁.length + 1 = s + (y :: l₁).length + 1 := by
        simp only [List.length_cons]
        omega
      have e2 : n - (l₁.length + 1) = n + 1 - ((y :: l₁).length + 1) := by
        simp only [List.length_cons]
        omega
      rw [e1, e2]

/-! ## Counter invariants along the loop -/

/-- The counter invariant: `epoch_step` never exceeds the number of
batches per epoch and never exceeds `global_step`. -/
def counterInv (cfg : Config) (st : TrainingState) : Prop :=
  st.epoch_step ≤ cfg.batchesPerEpoch ∧ st.epoch_step ≤ st.global_step

/-- The loop invariant: `counterInv` holds of the current counters and of
every state observed so far. -/
def loopInv (cfg : Config) (ls : LoopState) : Prop :=
  counterInv cfg ls.state ∧ ∀ s ∈ ls.trace, counterInv cfg s

theorem counterInv_stepState (cfg : Config) (loss : ℕ → ℕ → ℤ) (i : ℕ)
    (st : TrainingState) (hi : i < cfg.batchesPerEpoch)
    (h : counterInv cfg st) : counterInv cfg (stepState cfg loss i st) := by
  obtain ⟨h1, h2⟩ := h
  unfold counterInv
  rw [stepState_epoch_step, stepState_global_step]
  split_ifs with hskip <;> omega

theorem counterInv_stepObs (cfg : Config) (loss : ℕ → ℕ → ℤ) (i : ℕ)
    (st : TrainingState) (hi : i < cfg.batchesPerEpoch)
    (h : counterInv cfg st) :
    ∀ s ∈ stepObs loss i st, counterInv cfg s := by
  intro s hs
  obtain ⟨h1, h2⟩ := h
  by_cases hskip : i < st.epoch_step
  · simp [stepObs, hskip] at hs
  · simp only [stepObs, if_neg hskip, List.mem_singleton] at hs
    subst hs
    unfold counterInv stepIncState
    constructor <;> simp <;> omega

theorem loopInv_runStep (cfg : Config) (loss : ℕ → ℕ → ℤ) (dt : ℕ → ℕ → ℚ) (i : ℕ)
    (ls : LoopState) (hi : i < cfg.batchesPerEpoch)
    (h : loopInv cfg ls) : loopInv cfg (runStep cfg loss dt i ls) := by
  obtain ⟨h1, h2⟩ := h
  constructor
  · rw [runStep_state]
    exact counterInv_stepState cfg loss i ls.state hi h1
  · rw [runStep_trace]
    intro s hs
    rcases List.mem_append.1 hs with hs | hs
    · exact h2 s hs
    · exact counterInv_stepObs cfg loss i ls.state hi h1 s hs

theorem loopInv_runSteps (cfg : Config) (loss : ℕ → ℕ → ℤ) (dt : ℕ → ℕ → ℚ) :
    ∀ (l : List ℕ) (ls : LoopState),
      (∀ i ∈ l, i < cfg.batchesPerEpoch) → loopInv cfg ls →
        loopInv cfg (runSteps cfg loss dt l ls)
  | [], _, _, h => h
  | i :: l, ls, hl, h => by
    simp only [runSteps, List.foldl_cons]
    exact loopInv_runSteps cfg loss dt l (runStep cfg loss dt i ls)
      (fun j hj => hl j (List.mem_cons_of_mem i hj))
      (loopInv_runStep cfg loss dt i ls (hl i (List.mem_cons_self i l)) h)

theorem loopInv_runEpochAt (cfg : Config) (loss : ℕ → ℕ → ℤ) (dt : ℕ → ℕ → ℚ) (e : ℕ)
    (ls : LoopState) (h : loopInv cfg ls) :
    loopInv cfg (runEpochAt cfg loss dt e ls) := by
  have hset : loopInv cfg (setEpoch e ls) := by
    obtain ⟨⟨ha, hb⟩, h2⟩ := h
    refine ⟨⟨by simpa [setEpoch] using ha, by simpa [setEpoch] using hb⟩, ?_⟩
    intro s hs
    simp only [setEpoch, List.mem_append, List.mem_singleton] at hs
    rcases hs with hs | hs
    · exact h2 s hs
    · subst hs
      exact ⟨by simpa using ha, by simpa using hb⟩
  have hsteps := loopInv_runSteps cfg loss dt
    (List.range cfg.batchesPerEpoch) (setEpoch e ls)
    (fun i hi => List.mem_range.1 hi) hset
  obtain ⟨⟨ha, hb⟩, h2⟩ := hsteps
  unfold runEpochAt runEpoch
  refine ⟨⟨by simp, by simp⟩, ?_⟩
  intro s hs
  simp only [List.mem_append, List.mem_singleton] at hs
  rcases hs with hs | hs
  · exact h2 s hs
  · subst hs
    exact ⟨by simp, by simp⟩

theorem loopInv_foldEpochs (cfg : Config) (loss : ℕ → ℕ → ℤ) (dt : ℕ → ℕ → ℚ) :
    ∀ (l : List ℕ) (ls : LoopState), loopInv cfg ls →
      loopInv cfg (l.foldl (fun acc e => runEpochAt cfg loss dt e acc) ls)
  | [], _, h => h
  | e :: l, ls, h => by
    simp only [List.foldl_cons]
    exact loopInv_foldEpochs cfg loss dt l (runEpochAt cfg loss dt e ls)
      (loopInv_runEpochAt cfg loss dt e ls h)

theorem loopInv_runLoop (cfg : Config) (loss : ℕ → ℕ → ℤ) (dt : ℕ → ℕ → ℚ)
    (ls : LoopState) (h : loopInv cfg ls) :
    loopInv cfg (runLoop cfg loss dt ls) :=
  loopInv_foldEpochs cfg loss dt _ ls h

/-! ## Leader-first execution (lines 379-387) -/

/-- The observable events of one process inside (and just after) the
`rank0_first` region: doing the unit of work, arriving at the first and
second `dist.barrier()`, and the first action past the region. -/
inductive REvent where
  | work
  | barrier1
  | barrier2
  | past
deriving DecidableEq, BEq, Repr

/-- The per-rank event program of `rank0_first` (lines 379-387): rank 0
performs the work before the first barrier, every other rank performs it
between the two barriers; `past` marks code after the region. -/
def rank0FirstProg (rank : ℕ) : List REvent :=
  (if rank = 0 then [REvent.work] else []) ++ [REvent.barrier1]
    ++ (if 0 < rank then [REvent.work] else [])
    ++ [REvent.barrier2, REvent.past]

/-- Position of an event in a rank's `rank0_first` program. -/
def evIdx (rank : ℕ) (e : REvent) : ℕ :=
  (rank0FirstProg rank).indexOf e

/-- A timestamp assignment `T rank k` (global time of rank `rank`'s
`k`-th program event) respects per-process program order. -/
def ProgOrder (n : ℕ) (T : ℕ → ℕ → ℕ) : Prop :=
  ∀ p < n, ∀ i < 4, ∀ j < 4, i < j → T p i < T p j

/-- Barrier semantics of `dist.barrier()` for barrier `b`: no process
executes an event placed after its own arrival at `b` until every process
has arrived at `b`. -/
def BarrierSync (n : ℕ) (T : ℕ → ℕ → ℕ) (b : REvent) : Prop :=
  ∀ p < n, ∀ q < n, ∀ j < 4, evIdx q b < j → T p (evIdx p b) < T q j

theorem rank0FirstProg_zero :
    rank0FirstProg 0
      = [REvent.work, REvent.barrier1, REvent.barrier2, REvent.past] := rfl

theorem rank0FirstProg_pos (r : ℕ) (h : 0 < r) :
    rank0FirstProg r
      = [REvent.barrier1, REvent.work, REvent.barrier2, REvent.past] := by
  have h' : r ≠ 0 := Nat.pos_iff_ne_zero.mp h
  simp [rank0FirstProg, h', h]

theorem evIdx_work (r : ℕ) :
    evIdx r REvent.work = if r = 0 then 0 else 1 := by
  by_cases h : r = 0
  · subst h
    rfl
  · rw [if_neg h, evIdx, rank0FirstProg_pos r (Nat.pos_of_ne_zero h)]
    rfl

theorem evIdx_barrier1 (r : ℕ) :
    evIdx r REvent.barrier1 = if r = 0 then 1 else 0 := by
  by_cases h : r = 0
  · subst h
    rfl
  · rw [if_neg h, evIdx, rank0FirstProg_pos r (Nat.pos_of_ne_zero h)]
    rfl

theorem evIdx_barrier2 (r : ℕ) : evIdx r REvent.barrier2 = 2 := by
  by_cases h : r = 0
  · subst h
    rfl
  · rw [evIdx, rank0FirstProg_pos r (Nat.pos_of_ne_zero h)]
    rfl

theorem evIdx_past (r : ℕ) : evIdx r REvent.past = 3 := by
  by_cases h : r = 0
  · subst h
    rfl
  · rw [evIdx, rank0FirstProg_pos r (Nat.pos_of_ne_zero h)]
    rfl

/-! ## Characterizing checkpointed states of a from-zero run -/

/-- Fold of the per-epoch counter effect over a list of epoch numbers. -/
def epochsFold (cfg : Config) (loss : ℕ → ℕ → ℤ) (l : List ℕ)
    (st : TrainingState) : TrainingState :=
  l.foldl (fun s e => epochAtStateF cfg loss e s) st

theorem epochAtStateF_epoch_step (cfg : Config) (loss : ℕ → ℕ → ℤ) (e : ℕ)
    (st : TrainingState) : (epochAtStateF cfg loss e st).epoch_step = 0 :=
  rfl

theorem epochsFold_epoch_step (cfg : Config) (loss : ℕ → ℕ → ℤ) :
    ∀ (l : List ℕ) (st : TrainingState), st.epoch_step = 0 →
      (epochsFold cfg loss l st).epoch_step = 0
  | [], _, h => h
  | e :: l, st, _ => by
    have h2 : epochsFold cfg loss (e :: l) st
        = epochsFold cfg loss l (epochAtStateF cfg loss e st) := rfl
    rw [h2]
    exact epochsFold_epoch_step cfg loss l _
      (epochAtStateF_epoch_step cfg loss e st)

theorem emitFold_mem {σ α : Type} (f : ℕ → σ → σ) (g : ℕ → σ → List α) :
    ∀ (l : List ℕ) (s : σ) (a : α), a ∈ emitFold f g l s →
      ∃ l₁ i l₂, l = l₁ ++ i :: l₂
        ∧ a ∈ g i (l₁.foldl (fun acc k => f k acc) s)
  | [], s, a, h => absurd h (by simp [emitFold])
  | i :: l, s, a, h => by
    simp only [emitFold, List.mem_append] at h
    rcases h with h | h
    · exact ⟨[], i, l, rfl, by simpa using h⟩
    · obtain ⟨l₁, j, l₂, hl, hg⟩ := emitFold_mem f g l (f i s) a h
      refine ⟨i :: l₁, j, l₂, ?_, ?_⟩
      · rw [List.cons_append, hl]
      · simpa using hg

theorem stepCkpt_mem (cfg : Config) (loss : ℕ → ℕ → ℤ) (i : ℕ)
    (st c : TrainingState) (h : c ∈ stepCkpt cfg loss i st) :
    ¬ i < st.epoch_step ∧ c = stepState cfg loss i st := by
  by_cases hskip : i < st.epoch_step
  · simp [stepCkpt, hskip] at h
  · refine ⟨hskip, ?_⟩
    simp only [stepCkpt, if_neg hskip] at h
    by_cases hmod : (stepState cfg loss i st).global_step % cfg.ckptFreq = 0
    · simpa [hmod] using h
    · simp [hmod] at h

theorem stepsFold_snoc (cfg : Config) (loss : ℕ → ℕ → ℤ) (l : List ℕ)
    (i : ℕ) (st : TrainingState) :
    stepsFold cfg loss (l ++ [i]) st
      = stepState cfg loss i (stepsFold cfg loss l st) := by
  rw [stepsFold_append]
  rfl

/-- Every state in `loopCkptF` of a from-zero run is the counter state
reached right after executing some step `i` of some epoch `e`. -/
theorem loopCkptF_mem_characterize (cfg : Config) (loss : ℕ → ℕ → ℤ)
    (c : TrainingState) (hc : c ∈ loopCkptF cfg loss zeroState) :
    ∃ e i, e < cfg.numEpochs ∧ i < cfg.batchesPerEpoch ∧
      c = stepsFold cfg loss (List.range (i + 1))
        { epochsFold cfg loss (List.range' 0 e) zeroState with epoch := e } := by
  have h0 : loopCkptF cfg loss zeroState
      = emitFold (epochAtStateF cfg loss) (epochAtCkptF cfg loss)
          (List.range' 0 cfg.numEpochs) zeroState := by
    simp [loopCkptF, zeroState]
  rw [h0] at hc
  obtain ⟨l₁, e, l₂, hl, hmem⟩ :=
    emitFold_mem (epochAtStateF cfg loss) (epochAtCkptF cfg loss)
      (List.range' 0 cfg.numEpochs) zeroState c hc
  obtain ⟨hl₁, he, _⟩ := range'_decomp cfg.numEpochs 0 l₁ l₂ e hl
  have heN : e < cfg.numEpochs := by
    have := congrArg List.length hl
    simp [List.length_range'] at this
    omega
  have hB : l₁.foldl (fun acc k => epochAtStateF cfg loss k acc) zeroState
      = epochsFold cfg loss (List.range' 0 e) zeroState := by
    have he' : e = l₁.length := by omega
    rw [epochsFold, he', ← hl₁]
  rw [hB] at hmem
  simp only [epochAtCkptF] at hmem
  obtain ⟨m₁, i, m₂, hm, hmem2⟩ :=
    emitFold_mem (stepState cfg loss) (stepCkpt cfg loss)
      (List.range cfg.batchesPerEpoch)
      { epochsFold cfg loss (List.range' 0 e) zeroState with epoch := e }
      c hmem
  rw [List.range_eq_range'] at hm
  obtain ⟨hm₁, hi, _⟩ := range'_decomp cfg.batchesPerEpoch 0 m₁ m₂ i hm
  have hibpe : i < cfg.batchesPerEpoch := by
    have := congrArg List.length hm
    simp [List.length_range'] at this
    omega
  obtain ⟨hskip, hceq⟩ := stepCkpt_mem cfg loss i _ c hmem2
  refine ⟨e, i, heN, hibpe, ?_⟩
  have hm₁' : m₁.foldl (fun acc k => stepState cfg loss k acc)
        { epochsFold cfg loss (List.range' 0 e) zeroState with epoch := e }
      = stepsFold cfg loss (List.range i)
        { epochsFold cfg loss (List.range' 0 e) zeroState with epoch := e } := by
    have hi' : i = m₁.length := by omega
    rw [stepsFold, List.range_eq_range', hi', ← hm₁]
  rw [List.range_succ, stepsFold_snoc, hceq, hm₁']

/-! ## Resume alignment -/

theorem TrainingState_setEpoch_self (st : TrainingState) (e : ℕ)
    (h : st.epoch = e) : { st with epoch := e } = st := by
  cases st
  cases h
  rfl

theorem range_split (n s : ℕ) (hs : s ≤ n) :
    List.range n = List.range s ++ List.range' s (n - s) := by
  rw [List.range_eq_range', List.range_eq_range']
  have h1 : n - s + s = n := by omega
  calc List.range' 0 n = List.range' 0 (n - s + s) := by rw [h1]
    _ = List.range' 0 s ++ List.range' (0 + s) (n - s) :=
        (List.range'_append_1 0 s (n - s)).symm
    _ = List.range' 0 s ++ List.range' s (n - s) := by rw [Nat.zero_add]

theorem mem_range_lt_of (s : ℕ) : ∀ j ∈ List.range s, j < s := fun _ hj =>
  List.mem_range.mp hj

theorem stepsFold_range_of_epoch_step (cfg : Config) (loss : ℕ → ℕ → ℤ)
    (st : TrainingState) (s : ℕ) (hst : st.epoch_step = s)
    (hs : s ≤ cfg.batchesPerEpoch) :
    stepsFold cfg loss (List.range cfg.batchesPerEpoch) st
      = stepsFold cfg loss
          (List.range' s (cfg.batchesPerEpoch - s)) st := by
  have hskipall : ∀ j ∈ List.range s, j < st.epoch_step := by
    intro j hj
    rw [hst]
    exact List.mem_range.mp hj
  rw [range_split cfg.batchesPerEpoch s hs, stepsFold_append,
    stepsFold_of_all_skip cfg loss (List.range s) st hskipall]

theorem stepExec_skip (j : ℕ) (st : TrainingState) (h : j < st.epoch_step) :
    stepExec j st = [] := by
  simp [stepExec, h]

theorem stepObs_skip (loss : ℕ → ℕ → ℤ) (j : ℕ) (st : TrainingState)
    (h : j < st.epoch_step) : stepObs loss j st = [] := by
  simp [stepObs, h]

theorem emitFold_range_of_epoch_step {α : Type} (cfg : Config)
    (loss : ℕ → ℕ → ℤ) (g : ℕ → TrainingState → List α)
    (hg : ∀ (j : ℕ) (st' : TrainingState), j < st'.epoch_step → g j st' = [])
    (st : TrainingState) (s : ℕ) (hst : st.epoch_step = s)
    (hs : s ≤ cfg.batchesPerEpoch) :
    emitFold (stepState cfg loss) g (List.range cfg.batchesPerEpoch) st
      = emitFold (stepState cfg loss) g
          (List.range' s (cfg.batchesPerEpoch - s)) st := by
  have hskipall : ∀ j ∈ List.range s, j < st.epoch_step := by
    intro j hj
    rw [hst]
    exact List.mem_range.mp hj
  have hfold :
      (List.range s).foldl (fun a j => stepState cfg loss j a) st = st :=
    stepsFold_of_all_skip cfg loss (List.range s) st hskipall
  rw [range_split cfg.batchesPerEpoch s hs, emitFold_append,
    emitFold_of_all_skip cfg loss g hg (List.range s) st hskipall,
    List.nil_append, hfold]

theorem resume_epoch_state (cfg : Config) (loss : ℕ → ℕ → ℤ) (e i : ℕ)
    (hi : i < cfg.batchesPerEpoch) (B : TrainingState)
    (hB : B.epoch_step = 0) :
    epochAtStateF cfg loss e
        (stepsFold cfg loss (List.range (i + 1)) { B with epoch := e })
      = epochAtStateF cfg loss e B := by
  have hBies : ({ B with epoch := e } : TrainingState).epoch_step = 0 := hB
  generalize hc :
    stepsFold cfg loss (List.range (i + 1)) { B with epoch := e } = c
  have hces : c.epoch_step = i + 1 := by
    rw [← hc, List.range_eq_range']
    have h := stepsFold_range'_epoch_step cfg loss (i + 1) 0
      { B with epoch := e } hBies
    simpa using h
  have hcepoch : c.epoch = e := by
    rw [← hc, stepsFold_epoch]
  unfold epochAtStateF epochStateF
  rw [TrainingState_setEpoch_self c e hcepoch,
    stepsFold_range_of_epoch_step cfg loss c (i + 1) hces (by omega),
    range_split cfg.batchesPerEpoch (i + 1) (by omega), stepsFold_append,
    hc]

theorem resume_epoch_exec (cfg : Config) (loss : ℕ → ℕ → ℤ) (e i : ℕ)
    (hi : i < cfg.batchesPerEpoch) (B : TrainingState)
    (hB : B.epoch_step = 0) :
    epochAtExecF cfg loss e
        (stepsFold cfg loss (List.range (i + 1)) { B with epoch := e })
      = (List.range' (i + 1) (cfg.batchesPerEpoch - (i + 1))).map
          (fun j => (e, j)) := by
  have hBies : ({ B with epoch := e } : TrainingState).epoch_step = 0 := hB
  generalize hc :
    stepsFold cfg loss (List.range (i + 1)) { B with epoch := e } = c
  have hces : c.epoch_step = i + 1 := by
    rw [← hc, List.range_eq_range']
    have h := stepsFold_range'_epoch_step cfg loss (i + 1) 0
      { B with epoch := e } hBies
    simpa using h
  have hcepoch : c.epoch = e := by
    rw [← hc, stepsFold_epoch]
  unfold epochAtExecF
  rw [TrainingState_setEpoch_self c e hcepoch,
    emitFold_range_of_epoch_step cfg loss stepExec stepExec_skip c (i + 1)
      hces (by omega),
    emitExec_range' cfg loss (cfg.batchesPerEpoch - (i + 1)) (i + 1) c hces,
    hcepoch]

theorem resume_epoch_exec_base (cfg : Config) (loss : ℕ → ℕ → ℤ) (e i : ℕ)
    (hi : i < cfg.batchesPerEpoch) (B : TrainingState)
    (hB : B.epoch_step = 0) :
    epochAtExecF cfg loss e B
      = emitFold (stepState cfg loss) stepExec (List.range (i + 1))
            { B with epoch := e }
          ++ epochAtExecF cfg loss e
              (stepsFold cfg loss (List.range (i + 1))
                { B with epoch := e }) := by
  have hBies : ({ B with epoch := e } : TrainingState).epoch_step = 0 := hB
  generalize hc :
    stepsFold cfg loss (List.range (i + 1)) { B with epoch := e } = c
  have hces : c.epoch_step = i + 1 := by
    rw [← hc, List.range_eq_range']
    have h := stepsFold_range'_epoch_step cfg loss (i + 1) 0
      { B with epoch := e } hBies
    simpa using h
  have hcepoch : c.epoch = e := by
    rw [← hc, stepsFold_epoch]
  have hc' : (List.range (i + 1)).foldl
      (fun s j => stepState cfg loss j s) { B with epoch := e } = c := hc
  unfold epochAtExecF
  rw [TrainingState_setEpoch_self c e hcepoch,
    emitFold_range_of_epoch_step cfg loss stepExec stepExec_skip c (i + 1)
      hces (by omega),
    range_split cfg.batchesPerEpoch (i + 1) (by omega), emitFold_append,
    hc']

theorem resume_epoch_obs (cfg : Config) (loss : ℕ → ℕ → ℤ) (e i : ℕ)
    (hi : i < cfg.batchesPerEpoch) (B : TrainingState)
    (hB : B.epoch_step = 0) :
    epochAtObsF cfg loss e B
      = ({ B with epoch := e }
            :: emitFold (stepState cfg loss) (stepObs loss)
                (List.range (i + 1)) { B with epoch := e })
          ++ (epochAtObsF cfg loss e
              (stepsFold cfg loss (List.range (i + 1))
                { B with epoch := e })).drop 1 := by
  have hBies : ({ B with epoch := e } : TrainingState).epoch_step = 0 := hB
  generalize hc :
    stepsFold cfg loss (List.range (i + 1)) { B with epoch := e } = c
  have hces : c.epoch_step = i + 1 := by
    rw [← hc, List.range_eq_range']
    have h := stepsFold_range'_epoch_step cfg loss (i + 1) 0
      { B with epoch := e } hBies
    simpa using h
  have hcepoch : c.epoch = e := by
    rw [← hc, stepsFold_epoch]
  have hc' : (List.range (i + 1)).foldl
      (fun s j => stepState cfg loss j s) { B with epoch := e } = c := hc
  unfold epochAtObsF
  rw [TrainingState_setEpoch_self c e hcepoch]
  simp only [List.drop_succ_cons, List.drop_zero]
  rw [emitFold_range_of_epoch_step cfg loss (stepObs loss)
      (stepObs_skip loss) c (i + 1) hces (by omega),
    stepsFold_range_of_epoch_step cfg loss c (i + 1) hces (by omega),
    range_split cfg.batchesPerEpoch (i + 1) (by omega), emitFold_append,
    stepsFold_append, hc, hc']
  simp [List.append_assoc]

/-- Core resumption fact at the pure counter level: a state checkpointed
by the from-zero run, used as the entry state of a fresh loop, fast
forwards to exactly the remaining batch indices of its epoch, emits the
same executed pairs and observed states as the rest of the from-zero run,
and reaches the same final counters. -/
theorem resume_main (cfg : Config) (loss : ℕ → ℕ → ℤ) (c : TrainingState)
    (hc : c ∈ loopCkptF cfg loss zeroState) :
    loopStateF cfg loss c = loopStateF cfg loss zeroState
    ∧ (loopExecF cfg loss c).take
          (cfg.batchesPerEpoch - c.epoch_step)
        = (List.range' c.epoch_step
            (cfg.batchesPerEpoch - c.epoch_step)).map (fun j => (c.epoch, j))
    ∧ (∃ pre, loopExecF cfg loss zeroState = pre ++ loopExecF cfg loss c
        ∧ pre.length = c.global_step)
    ∧ (∃ tpre, loopObsF cfg loss zeroState
        = tpre ++ (loopObsF cfg loss c).drop 1) := by
  obtain ⟨e, i, heN, hi, hceq⟩ := loopCkptF_mem_characterize cfg loss c hc
  set B := epochsFold cfg loss (List.range' 0 e) zeroState with hB
  have hBes : B.epoch_step = 0 :=
    epochsFold_epoch_step cfg loss (List.range' 0 e) zeroState rfl
  have hces : c.epoch_step = i + 1 := by
    rw [hceq, List.range_eq_range']
    have h := stepsFold_range'_epoch_step cfg loss (i + 1) 0
      { B with epoch := e } hBes
    simpa using h
  have hcepoch : c.epoch = e := by
    rw [hceq, stepsFold_epoch]
  have hA := resume_epoch_state cfg loss e i hi B hBes
  rw [← hceq] at hA
  have hEx := resume_epoch_exec cfg loss e i hi B hBes
  rw [← hceq] at hEx
  have hExB := resume_epoch_exec_base cfg loss e i hi B hBes
  rw [← hceq] at hExB
  have hObs := resume_epoch_obs cfg loss e i hi B hBes
  rw [← hceq] at hObs
  have hrest : cfg.numEpochs - e = (cfg.numEpochs - (e + 1)) + 1 := by
    omega
  have hlistC : List.range' c.epoch (cfg.numEpochs - c.epoch)
      = e :: List.range' (e + 1) (cfg.numEpochs - (e + 1)) := by
    rw [hcepoch, hrest, List.range'_succ]
  have hlist0 : List.range' (0 : ℕ) cfg.numEpochs
      = List.range' 0 e
          ++ (e :: List.range' (e + 1) (cfg.numEpochs - (e + 1))) := by
    have h3 : cfg.numEpochs - e + e = cfg.numEpochs := by omega
    calc List.range' 0 cfg.numEpochs
        = List.range' 0 (cfg.numEpochs - e + e) := by rw [h3]
      _ = List.range' 0 e ++ List.range' (0 + e) (cfg.numEpochs - e) :=
          (List.range'_append_1 0 e (cfg.numEpochs - e)).symm
      _ = List.range' 0 e ++ List.range' e (cfg.numEpochs - e) := by
          rw [Nat.zero_add]
      _ = _ := by rw [hrest, List.range'_succ]
  have hfoldB : (List.range' 0 e).foldl
      (fun s k => epochAtStateF cfg loss k s) zeroState = B := hB.symm
  have hzeroList : List.range' zeroState.epoch
      (cfg.numEpochs - zeroState.epoch) = List.range' 0 cfg.numEpochs := rfl
  refine ⟨?_, ?_, ?_, ?_⟩
  · unfold loopStateF
    rw [hzeroList, hlistC, hlist0, List.foldl_append, hfoldB]
    simp only [List.foldl_cons]
    rw [hA]
  · unfold loopExecF
    rw [hlistC]
    simp only [emitFold]
    rw [hEx, hces, hcepoch]
    exact List.take_left' (by simp [List.length_range'])
  · refine ⟨emitFold (epochAtStateF cfg loss) (epochAtExecF cfg loss)
        (List.range' 0 e) zeroState
      ++ emitFold (stepState cfg loss) stepExec (List.range (i + 1))
          { B with epoch := e }, ?_, ?_⟩
    · unfold loopExecF
      rw [hzeroList, hlistC, hlist0, emitFold_append, hfoldB]
      simp only [emitFold]
      rw [hExB, hA]
      simp [List.append_assoc]
    · rw [List.length_append]
      have h1 := emitFold_count (epochAtStateF cfg loss)
        (epochAtExecF cfg loss) (fun s => s.global_step)
        (fun k s => epochAt_count cfg loss k s) (List.range' 0 e) zeroState
      rw [hfoldB] at h1
      have h2 := execCount_steps cfg loss (List.range (i + 1))
        { B with epoch := e }
      rw [← hceq] at h2
      have h2' : B.global_step
          + (emitFold (stepState cfg loss) stepExec (List.range (i + 1))
              { B with epoch := e }).length = c.global_step := h2
      have h0 : zeroState.global_step = 0 := rfl
      omega
  · refine ⟨emitFold (epochAtStateF cfg loss) (epochAtObsF cfg loss)
        (List.range' 0 e) zeroState
      ++ ({ B with epoch := e }
            :: emitFold (stepState cfg loss) (stepObs loss)
                (List.range (i + 1)) { B with epoch := e }), ?_⟩
    unfold loopObsF
    rw [hzeroList, hlistC, hlist0, emitFold_append, hfoldB]
    simp only [emitFold]
    rw [hObs, hA]
    have hcons : epochAtObsF cfg loss e c
        = { c with epoch := e }
            :: (emitFold (stepState cfg loss) (stepObs loss)
                  (List.range cfg.batchesPerEpoch) { c with epoch := e }
                ++ [{ stepsFold cfg loss (List.range cfg.batchesPerEpoch)
                      { c with epoch := e } with epoch_step := 0 }]) := rfl
    rw [hcons]
    simp [List.append_assoc]

/-! ## Concrete scenario data -/

/-- Loss oracle that always returns 0 (scenario runs). -/
def zeroLoss : ℕ → ℕ → ℤ := fun _ _ => 0

/-- Data-stage duration oracle that always returns 0 (scenario runs). -/
def zeroDur : ℕ → ℕ → ℚ := fun _ _ => 0

/-- Scenario configuration for the counter-invariant counterexample:
one epoch of one batch, checkpoint every step. -/
def cfgC1 : Config :=
  { numEpochs := 1, batchesPerEpoch := 1, logFreq := 100, ckptFreq := 1 }

/-- The spec §8 scenario configuration: batches_per_epoch=10,
checkpoint_interval=5 (log_freq at its default 100). -/
def cfgC2 : Config :=
  { numEpochs := 1, batchesPerEpoch := 10, logFreq := 100, ckptFreq := 5 }

/-- Small configuration for the resume-idempotence witness. -/
def cfgC4w : Config :=
  { numEpochs := 1, batchesPerEpoch := 2, logFreq := 100, ckptFreq := 1 }

/-- A mid-epoch loop state with `epoch_step = 2` (as after restoring a
checkpoint saved at `global_step = 3`, `epoch_step = 2`). -/
def lsW : LoopState :=
  { state := ⟨0, 3, 2, 0⟩, dataTimer := [], ckpts := [], executed := [],
    trace := [⟨0, 3, 2, 0⟩] }

/-- A store holding a `state.json` whose checkpoint directory has rank 0's
shard but not rank 1's. -/
def storeC3 : Store 2 :=
  { stateJson := some zeroState, lrScheduler := some 0,
    shards := fun r => if r = 0 then some 7 else none }

/-- An empty store: no checkpoint record at all. -/
def storeC8 : Store 2 :=
  { stateJson := none, lrScheduler := none, shards := fun _ => none }

/-- A timer holding two samples. -/
def timerW : LocalTimer := { measurements := [2, 4], start_time := none }

/-! ## The claims -/

/-- Claim C3: if a checkpoint record is present (its `state.json` exists)
but its per-rank shard blobs are present for some ranks and missing for
others, restore fails fatally (the collective load raises and `main` has
no handler); it never returns a zero-valued or partially-loaded
`TrainingState` and proceeds. -/
theorem c3_partial_checkpoint_fatal (n : ℕ) (store : Store n)
    (st : TrainingState) (hjson : store.stateJson = some st)
    (rPresent : Fin n) (hpres : (store.shards rPresent).isSome = true)
    (rMissing : Fin n) (hmiss : store.shards rMissing = none) :
    tryRestore n store = Except.error ()
    ∧ ∀ out : RestoreOutcome n, tryRestore n store ≠ Except.ok out := by
  have hload : dcpLoad n store = Except.error () := by
    unfold dcpLoad
    rw [dif_neg]
    intro hall
    have h := hall rMissing
    rw [hmiss] at h
    simp at h
  constructor
  · simp [tryRestore, hjson, hload]
  · intro out
    simp [tryRestore, hjson, hload]

/-- Claim C3 witness: a concrete two-rank store with only rank 0's shard
present fails restore fatally. -/
theorem c3_partial_checkpoint_fatal_witness :
    (storeC3.stateJson = some zeroState
      ∧ (storeC3.shards 0).isSome = true
      ∧ storeC3.shards 1 = none)
    ∧ (tryRestore 2 storeC3 = Except.error ()
      ∧ ∀ out : RestoreOutcome 2, tryRestore 2 storeC3 ≠ Except.ok out) :=
  ⟨⟨rfl, by decide, by decide⟩,
    c3_partial_checkpoint_fatal 2 storeC3 zeroState rfl 0 (by decide) 1
      (by decide)⟩

/-- Claim C8: with no checkpoint record at the configured location
(`state.json` absent), restore returns the zero-valued `TrainingState`
with `resumed = False`, and the model/optimizer shards and the scheduler
are left untouched. -/
theorem c8_no_checkpoint_zero_start (n : ℕ) (store : Store n)
    (h : store.stateJson = none) :
    tryRestore n store = Except.ok ⟨zeroState, false, none, none⟩ := by
  simp [tryRestore, h]

/-- Claim C8 witness: the empty store restores to the zero state without
touching anything. -/
theorem c8_no_checkpoint_zero_start_witness :
    storeC8.stateJson = none
    ∧ tryRestore 2 storeC8 = Except.ok ⟨zeroState, false, none, none⟩ :=
  ⟨rfl, c8_no_checkpoint_zero_start 2 storeC8 rfl⟩

/-- Claim C5: a step whose batch index is below the restored `epoch_step`
is skipped right after the data stage: `global_step`, `epoch_step` and
`running_loss` are all unmodified by that step (and no executed pair or
checkpoint is produced). -/
theorem c5_skip_frame (cfg : Config) (loss : ℕ → ℕ → ℤ) (dt : ℕ → ℕ → ℚ) (i : ℕ)
    (ls : LoopState) (h : i < ls.state.epoch_step) :
    (runStep cfg loss dt i ls).state.global_step = ls.state.global_step
    ∧ (runStep cfg loss dt i ls).state.epoch_step = ls.state.epoch_step
    ∧ (runStep cfg loss dt i ls).state.running_loss
        = ls.state.running_loss
    ∧ (runStep cfg loss dt i ls).executed = ls.executed
    ∧ (runStep cfg loss dt i ls).ckpts = ls.ckpts := by
  rw [runStep_of_skip cfg loss dt i ls h]
  exact ⟨rfl, rfl, rfl, rfl, rfl⟩

/-- Claim C5 witness: step index 0 under a restored `epoch_step = 2`
leaves all counters unchanged. -/
theorem c5_skip_frame_witness :
    (0 < lsW.state.epoch_step)
    ∧ ((runStep cfgC2 zeroLoss zeroDur 0 lsW).state.global_step
          = lsW.state.global_step
      ∧ (runStep cfgC2 zeroLoss zeroDur 0 lsW).state.epoch_step
          = lsW.state.epoch_step
      ∧ (runStep cfgC2 zeroLoss zeroDur 0 lsW).state.running_loss
          = lsW.state.running_loss
      ∧ (runStep cfgC2 zeroLoss zeroDur 0 lsW).executed = lsW.executed
      ∧ (runStep cfgC2 zeroLoss zeroDur 0 lsW).ckpts = lsW.ckpts) :=
  ⟨by decide, c5_skip_frame cfgC2 zeroLoss zeroDur 0 lsW (by decide)⟩

/-- Claim C10: a step skipped by resume fast-forward still appends
exactly one sample to the data-stage timer, because the timed region
around the batch fetch and device transfer closes before the skip test;
the sample survives until the next logging reset, which can only fire on
an executed step. -/
theorem c10_skip_data_sample (cfg : Config) (loss : ℕ → ℕ → ℤ) (dt : ℕ → ℕ → ℚ) (i : ℕ)
    (ls : LoopState) (h : i < ls.state.epoch_step) :
    (runStep cfg loss dt i ls).dataTimer
      = ls.dataTimer ++ [dt ls.state.epoch i] := by
  rw [runStep_of_skip cfg loss dt i ls h]

/-- Claim C10 witness: the concrete skipped step appends its data-stage
sample. -/
theorem c10_skip_data_sample_witness :
    (0 < lsW.state.epoch_step)
    ∧ (runStep cfgC2 zeroLoss zeroDur 0 lsW).dataTimer
        = lsW.dataTimer ++ [zeroDur lsW.state.epoch 0] :=
  ⟨by decide, c10_skip_data_sample cfgC2 zeroLoss zeroDur 0 lsW (by decide)⟩

/-- Claim C6: leaving a timer-bracketed stage appends exactly one sample
when the body completed normally (`traceback is None`), and appends no
sample when the body raised. -/
theorem c6_timer_error_no_sample (t : LocalTimer) (t0 t1 : ℚ) :
    ((t.enter t0).exit true t1).measurements = t.measurements ++ [t1 - t0]
    ∧ ((t.enter t0).exit false t1).measurements = t.measurements := by
  constructor
  · simp [LocalTimer.enter, LocalTimer.exit]
  · simp [LocalTimer.enter, LocalTimer.exit]

/-- Claim C7: over `n ≥ 1` recorded samples, `avg_elapsed_ms` returns
exactly 1000 times the sum of the samples divided by `n`, i.e. the
arithmetic mean of the samples converted to milliseconds. -/
theorem c7_avg_elapsed_ms (t : LocalTimer) (n : ℕ) (hn : 0 < n)
    (hlen : t.measurements.length = n) :
    t.avg_elapsed_ms = (1000 * t.measurements.sum) / (n : ℚ)
    ∧ t.avg_elapsed_ms
        = ((t.measurements.map (fun x => 1000 * x)).sum) / (n : ℚ) := by
  unfold LocalTimer.avg_elapsed_ms
  rw [hlen]
  constructor
  · rw [mul_div_assoc]
  · have hsum : ((t.measurements.map (fun x => (1000 : ℚ) * x)).sum)
        = 1000 * t.measurements.sum := by
      induction t.measurements with
      | nil => simp
      | cons a l ih =>
        simp only [List.map_cons, List.sum_cons, ih]
        ring
    rw [hsum, mul_div_assoc]

/-- Claim C7 witness: the timer holding samples 2 and 4 reports an
average of 3000 milliseconds both ways. -/
theorem c7_avg_elapsed_ms_witness :
    (0 < 2 ∧ timerW.measurements.length = 2)
    ∧ (timerW.avg_elapsed_ms
          = (1000 * timerW.measurements.sum) / ((2 : ℕ) : ℚ)
      ∧ timerW.avg_elapsed_ms
          = ((timerW.measurements.map (fun x => 1000 * x)).sum)
              / ((2 : ℕ) : ℚ)) :=
  ⟨⟨by decide, by decide⟩,
    c7_avg_elapsed_ms timerW 2 (by decide) (by decide)⟩

/-- Claim C1 counterexample: the claim's strict bound
`epoch_step < batches_per_epoch` fails.  With one batch per epoch and
checkpointing every step, the state observed right after the epoch's last
step — the very state at which the checkpoint save fires and which is
written to `state.json` — has `epoch_step = 1 = batches_per_epoch`. -/
theorem c1_counterexample :
    (⟨0, 1, 1, 0⟩ : TrainingState)
        ∈ (runLoop cfgC1 zeroLoss zeroDur (initLoop zeroState)).trace
    ∧ (⟨0, 1, 1, 0⟩ : TrainingState)
        ∈ (runLoop cfgC1 zeroLoss zeroDur (initLoop zeroState)).ckpts
    ∧ ¬ ((⟨0, 1, 1, 0⟩ : TrainingState).epoch_step
          < cfgC1.batchesPerEpoch) := by
  decide

/-- Claim C1 (amended): for every state observed by the loop (including
the states at which a checkpoint save or a metrics log fires),
`0 ≤ epoch_step ≤ batches_per_epoch` (the upper bound is attained right
after an epoch's last step) and `global_step ≥ epoch_step`; moreover
`epoch_step` is set to exactly 0 at every epoch boundary and is never
decreased by a step, so it is reset at no other point. -/
theorem c1_counter_invariants (cfg : Config) (loss : ℕ → ℕ → ℤ) (dt : ℕ → ℕ → ℚ)
    (st0 : TrainingState) (h1 : st0.epoch_step ≤ cfg.batchesPerEpoch)
    (h2 : st0.epoch_step ≤ st0.global_step) :
    (∀ s ∈ (runLoop cfg loss dt (initLoop st0)).trace,
        s.epoch_step ≤ cfg.batchesPerEpoch ∧ s.epoch_step ≤ s.global_step)
    ∧ (∀ ls : LoopState, (runEpoch cfg loss dt ls).state.epoch_step = 0)
    ∧ (∀ (i : ℕ) (st : TrainingState),
        st.epoch_step ≤ (stepState cfg loss i st).epoch_step) := by
  refine ⟨?_, fun ls => rfl,
    fun i st => stepState_epoch_step_le cfg loss i st⟩
  have hinv : loopInv cfg (initLoop st0) := by
    refine ⟨⟨h1, h2⟩, ?_⟩
    intro s hs
    simp only [initLoop, List.mem_singleton] at hs
    subst hs
    exact ⟨h1, h2⟩
  exact (loopInv_runLoop cfg loss dt (initLoop st0) hinv).2

/-- Claim C1 witness: the amended invariant holds of the concrete
one-batch run started from the zero state. -/
theorem c1_counter_invariants_witness :
    (zeroState.epoch_step ≤ cfgC1.batchesPerEpoch
      ∧ zeroState.epoch_step ≤ zeroState.global_step)
    ∧ ((∀ s ∈ (runLoop cfgC1 zeroLoss zeroDur (initLoop zeroState)).trace,
          s.epoch_step ≤ cfgC1.batchesPerEpoch
            ∧ s.epoch_step ≤ s.global_step)
      ∧ (∀ ls : LoopState,
          (runEpoch cfgC1 zeroLoss zeroDur ls).state.epoch_step = 0)
      ∧ (∀ (i : ℕ) (st : TrainingState),
          st.epoch_step ≤ (stepState cfgC1 zeroLoss i st).epoch_step)) :=
  ⟨⟨by decide, by decide⟩,
    c1_counter_invariants cfgC1 zeroLoss zeroDur zeroState (by decide)
      (by decide)⟩

/-- Claim C2 counterexample: in the §8 scenario (batches_per_epoch=10,
checkpoint_interval=5, from the zero state) the first epoch performs TWO
checkpoint saves — at `global_step = 5` and at `global_step = 10` — not
exactly one. -/
theorem c2_counterexample :
    ((runLoop cfgC2 zeroLoss zeroDur (initLoop zeroState)).ckpts.map
        TrainingState.global_step = [5, 10])
    ∧ ¬ ((runLoop cfgC2 zeroLoss zeroDur
          (initLoop zeroState)).ckpts.length = 1) := by
  decide

/-- Claim C2 (amended): in the §8 scenario the first epoch performs
exactly two checkpoint saves, at `global_step = 5` (with
`epoch_step = 5`) and at `global_step = 10`; a run restored from the
`global_step = 5` checkpoint executes step index 5 as its first
non-skipped step, skipping batch indices 0 through 4. -/
theorem c2_scenario_amended :
    (runLoop cfgC2 zeroLoss zeroDur (initLoop zeroState)).ckpts
      = [⟨0, 5, 5, 0⟩, ⟨0, 10, 10, 0⟩]
    ∧ (runLoop cfgC2 zeroLoss zeroDur
          (initLoop ⟨0, 5, 5, 0⟩)).executed
        = [(0, 5), (0, 6), (0, 7), (0, 8), (0, 9)]
    ∧ ((runLoop cfgC2 zeroLoss zeroDur
          (initLoop ⟨0, 5, 5, 0⟩)).executed).head? = some (0, 5) := by
  decide

/-- Claim C9: in leader-first execution, under program order and barrier
semantics for the two `dist.barrier()` calls of `rank0_first`, no rank
other than 0 begins the unit of work before rank 0 has completed it, and
no process proceeds past the region before every process has executed the
work. -/
theorem c9_rank0_first_ordering (n : ℕ) (T : ℕ → ℕ → ℕ)
    (hord : ProgOrder n T) (hb1 : BarrierSync n T REvent.barrier1)
    (hb2 : BarrierSync n T REvent.barrier2) :
    (∀ r, 0 < r → r < n →
        T 0 (evIdx 0 REvent.work) < T r (evIdx r REvent.work))
    ∧ (∀ p, p < n → ∀ q, q < n →
        T q (evIdx q REvent.work) < T p (evIdx p REvent.past)) := by
  constructor
  · intro r hr hrn
    have h0 : (0 : ℕ) < n := lt_trans hr hrn
    have hrne : r ≠ 0 := Nat.pos_iff_ne_zero.mp hr
    have e1 : evIdx 0 REvent.work = 0 := by rw [evIdx_work]; simp
    have e2 : evIdx 0 REvent.barrier1 = 1 := by rw [evIdx_barrier1]; simp
    have e3 : evIdx r REvent.work = 1 := by rw [evIdx_work, if_neg hrne]
    have e4 : evIdx r REvent.barrier1 = 0 := by
      rw [evIdx_barrier1, if_neg hrne]
    rw [e1, e3]
    have step1 : T 0 0 < T 0 1 :=
      hord 0 h0 0 (by omega) 1 (by omega) (by omega)
    have step2 : T 0 1 < T r 1 := by
      have h5 := hb1 0 h0 r hrn 1 (by omega) (by rw [e4]; omega)
      rw [e2] at h5
      exact h5
    exact lt_trans step1 step2
  · intro p hp q hq
    have e5 : evIdx p REvent.past = 3 := evIdx_past p
    have e6 : evIdx q REvent.barrier2 = 2 := evIdx_barrier2 q
    have hwq : evIdx q REvent.work < 2 := by
      rw [evIdx_work]
      split_ifs <;> omega
    have step1 : T q (evIdx q REvent.work) < T q 2 :=
      hord q hq (evIdx q REvent.work) (by omega) 2 (by omega) hwq
    have step2 : T q 2 < T p 3 := by
      have h5 := hb2 q hq p hp 3 (by omega) (by rw [evIdx_barrier2]; omega)
      rw [e6] at h5
      exact h5
    rw [e5]
    exact lt_trans step1 step2

/-- A concrete valid timestamp assignment for two processes running
`rank0_first`: rank 0 works at time 0, both arrive at the first barrier
(times 1 and 2), rank 1 works at time 3, both arrive at the second
barrier (times 4 and 5) and proceed past the region (times 6 and 7). -/
def Twit : ℕ → ℕ → ℕ := fun p i =>
  match p, i with
  | 0, 0 => 0
  | 0, 1 => 1
  | 0, 2 => 4
  | 0, 3 => 6
  | 1, 0 => 2
  | 1, 1 => 3
  | 1, 2 => 5
  | _, _ => 7

/-- Claim C9 witness: the concrete two-process schedule satisfies program
order and both barrier disciplines, and therefore the leader-first
ordering. -/
theorem c9_rank0_first_ordering_witness :
    (ProgOrder 2 Twit ∧ BarrierSync 2 Twit REvent.barrier1
      ∧ BarrierSync 2 Twit REvent.barrier2)
    ∧ ((∀ r, 0 < r → r < 2 →
          Twit 0 (evIdx 0 REvent.work) < Twit r (evIdx r REvent.work))
      ∧ (∀ p, p < 2 → ∀ q, q < 2 →
          Twit q (evIdx q REvent.work) < Twit p (evIdx p REvent.past))) :=
  ⟨⟨by unfold ProgOrder; decide, by unfold BarrierSync; decide,
      by unfold BarrierSync; decide⟩,
    c9_rank0_first_ordering 2 Twit (by unfold ProgOrder; decide)
      (by unfold BarrierSync; decide) (by unfold BarrierSync; decide)⟩

/-- Claim C4: for every checkpoint `c` saved by an uninterrupted
from-zero run, a run restored from `c` (even with different stage
timings) processes exactly the batch indices
`c.epoch_step .. batches_per_epoch - 1` of epoch `c.epoch` first, its
executed batch sequence is exactly the suffix of the uninterrupted run's
executed sequence after the `c.global_step` steps already done, its
observed counter trajectory is a suffix of the uninterrupted run's
trajectory, and it reaches the same final counters. -/
theorem c4_resume_idempotence (cfg : Config) (loss : ℕ → ℕ → ℤ)
    (dt dtr : ℕ → ℕ → ℚ) (c : TrainingState)
    (hc : c ∈ (runLoop cfg loss dt (initLoop zeroState)).ckpts) :
    (runLoop cfg loss dtr (initLoop c)).state
        = (runLoop cfg loss dt (initLoop zeroState)).state
    ∧ (runLoop cfg loss dtr (initLoop c)).executed.take
          (cfg.batchesPerEpoch - c.epoch_step)
        = (List.range' c.epoch_step
            (cfg.batchesPerEpoch - c.epoch_step)).map (fun j => (c.epoch, j))
    ∧ (∃ pre, (runLoop cfg loss dt (initLoop zeroState)).executed
          = pre ++ (runLoop cfg loss dtr (initLoop c)).executed
        ∧ pre.length = c.global_step)
    ∧ (∃ tpre, (runLoop cfg loss dt (initLoop zeroState)).trace
        = tpre ++ ((runLoop cfg loss dtr (initLoop c)).trace.drop 2)) := by
  have hc' : c ∈ loopCkptF cfg loss zeroState := by
    rw [runLoop_ckpts] at hc
    simpa [initLoop] using hc
  obtain ⟨hstate, htake, ⟨pre, hpre, hlen⟩, ⟨tpre, htpre⟩⟩ :=
    resume_main cfg loss c hc'
  refine ⟨?_, ?_, ⟨pre, ?_, hlen⟩, ?_⟩
  · rw [runLoop_state, runLoop_state]
    exact hstate
  · rw [runLoop_executed]
    simp only [initLoop, List.nil_append]
    exact htake
  · rw [runLoop_executed, runLoop_executed]
    simp only [initLoop, List.nil_append]
    exact hpre
  · rw [runLoop_trace, runLoop_trace]
    simp only [initLoop, List.singleton_append]
    refine ⟨zeroState :: tpre, ?_⟩
    have hdrop : (c :: loopObsF cfg loss c).drop 2
        = (loopObsF cfg loss c).drop 1 := by
      simp [List.drop]
    rw [hdrop, List.cons_append, htpre]

/-- Claim C4 witness: in a one-epoch run with two batches checkpointed
every step, the checkpoint at `global_step = 1` restores and continues
to the same outcome as the uninterrupted run. -/
theorem c4_resume_idempotence_witness :
    ((⟨0, 1, 1, 0⟩ : TrainingState)
        ∈ (runLoop cfgC4w zeroLoss zeroDur (initLoop zeroState)).ckpts)
    ∧ ((runLoop cfgC4w zeroLoss zeroDur
            (initLoop (⟨0, 1, 1, 0⟩ : TrainingState))).state
          = (runLoop cfgC4w zeroLoss zeroDur (initLoop zeroState)).state
      ∧ (runLoop cfgC4w zeroLoss zeroDur
            (initLoop (⟨0, 1, 1, 0⟩ : TrainingState))).executed.take
              (cfgC4w.batchesPerEpoch
                - (⟨0, 1, 1, 0⟩ : TrainingState).epoch_step)
          = (List.range' (⟨0, 1, 1, 0⟩ : TrainingState).epoch_step
              (cfgC4w.batchesPerEpoch
                - (⟨0, 1, 1, 0⟩ : TrainingState).epoch_step)).map
              (fun j => ((⟨0, 1, 1, 0⟩ : TrainingState).epoch, j))
      ∧ (∃ pre,
            (runLoop cfgC4w zeroLoss zeroDur (initLoop zeroState)).executed
              = pre ++ (runLoop cfgC4w zeroLoss zeroDur
                  (initLoop (⟨0, 1, 1, 0⟩ : TrainingState))).executed
            ∧ pre.length = (⟨0, 1, 1, 0⟩ : TrainingState).global_step)
      ∧ (∃ tpre,
            (runLoop cfgC4w zeroLoss zeroDur (initLoop zeroState)).trace
              = tpre ++ ((runLoop cfgC4w zeroLoss zeroDur
                  (initLoop (⟨0, 1, 1, 0⟩ : TrainingState))).trace.drop
                    2))) :=
  ⟨by decide,
    c4_resume_idempotence cfgC4w zeroLoss zeroDur zeroDur ⟨0, 1, 1, 0⟩
      (by decide)⟩
